import Mathlib

set_option maxRecDepth 4000

/-!
Verification development for the financial projection engine of the
rent-vs-buy / sell-vs-keep calculator (Go sources).

The Go code is shallowly embedded.  float64 arithmetic is modelled by
exact rational arithmetic over ℚ, except where the source raises a value
to a fractional power (math.Pow with a non-integer exponent), which is
modelled over ℝ with Real.rpow.  A float division whose denominator is
zero produces a non-finite float (Inf or NaN) in Go; such divisions are
modelled with Option, none standing for the non-finite result.  A Go
slice read with an out-of-range index panics; such reads are modelled
with Option, none standing for the panic.

The main source file holds two concatenated programs (two func main):
the current two-scenario program and an older buy-vs-rent program whose
near-duplicate functions carry the V2 marker below.

Go standard-library string helpers operate here on List Char:
strings.ToLower is List.map Char.toLower, strings.TrimSpace drops
whitespace at both ends, strconv.Atoi and strconv.ParseFloat are
modelled by goAtoi and goParseFloat (goParseFloat covers the plain
decimal forms used by this program; exponent, hex and inf forms of
ParseFloat are not modelled).
-/

namespace Calc

/-- Value of a list of decimal digit characters, most significant first. -/
def digitsToNat (ds : List Char) : ℕ :=
  ds.foldl (fun n d => 10 * n + (d.toNat - 48)) 0

/-- Models strconv.Atoi: optional sign followed by one or more digits. -/
def goAtoi (s : List Char) : Option Int :=
  let core : List Char → Option Int := fun t =>
    if t ≠ [] ∧ t.all Char.isDigit then some (digitsToNat t : ℕ) else none
  match s with
  | '-' :: t => (core t).map (fun v => -v)
  | '+' :: t => core t
  | t => core t

/-- Models strconv.ParseFloat on plain decimal input:
optional sign, digits, optional fraction part.  Returns none on any
other input (Go returns an error there for these forms). -/
def goParseFloat (s : List Char) : Option ℚ :=
  let signed : ℚ × List Char :=
    match s with
    | '-' :: t => (-1, t)
    | '+' :: t => (1, t)
    | t => (1, t)
  let sign := signed.1
  let body := signed.2
  let intPart := body.takeWhile Char.isDigit
  let rest := body.dropWhile Char.isDigit
  match rest with
  | [] =>
      if intPart = [] then none
      else some (sign * (digitsToNat intPart : ℕ))
  | '.' :: frac =>
      if frac.all Char.isDigit ∧ (intPart ≠ [] ∨ frac ≠ []) then
        some (sign * ((digitsToNat intPart : ℕ) +
          (digitsToNat frac : ℕ) / (10 : ℚ) ^ frac.length))
      else none
  | _ => none

/-- Models strings.TrimSpace on a character list. -/
def trimSpace (s : List Char) : List Char :=
  ((s.dropWhile Char.isWhitespace).reverse.dropWhile Char.isWhitespace).reverse

/-- Models strings.ToLower on a character list. -/
def goToLower (s : List Char) : List Char :=
  s.map Char.toLower

/-- Models strings.HasSuffix for a one-character suffix. -/
def hasSuffixC (s : List Char) (c : Char) : Bool :=
  match s.reverse with
  | [] => false
  | d :: _ => d = c

/-- Models strings.TrimSuffix for a one-character suffix. -/
def trimSuffixC (s : List Char) (c : Char) : List Char :=
  match s.reverse with
  | [] => s
  | d :: t => if d = c then t.reverse else s

/-- Models strings.Split with separator a single character.  On the empty
string Go returns one empty field, matching the initial accumulator. -/
def splitOnC (s : List Char) (sep : Char) : List (List Char) :=
  s.foldr
    (fun c acc =>
      if c = sep then [] :: acc
      else
        match acc with
        | g :: t => (c :: g) :: t
        | [] => [[c]])
    [[]]

/-- Embeds Go parseAmount (currency amounts with k, M, B suffixes,
empty input defaults to 0, a trailing percent sign is stripped).
none models the (0, err) return with a non-nil error. -/
def parseAmount (input : String) : Option ℚ :=
  let cs := goToLower (trimSpace input.toList)
  if cs = [] then some 0
  else
    let cs := trimSpace (trimSuffixC cs '%')
    let multNum : ℚ × List Char :=
      if hasSuffixC cs 'k' then (1000, trimSuffixC cs 'k')
      else if hasSuffixC cs 'm' then (1000000, trimSuffixC cs 'm')
      else if hasSuffixC cs 'b' then (1000000000, trimSuffixC cs 'b')
      else (1, cs)
    (goParseFloat (trimSpace multNum.2)).map (fun v => v * multNum.1)

/-- The year and month parts of Go parseDuration: the year count is
everything before the first y, the month count everything before the
first m of the remainder. -/
def parseDurationYM (cs : List Char) : Except String (Int × Int) :=
  let yearsRest : Except String (Int × List Char) :=
    if cs.contains 'y' then
      match goAtoi (cs.takeWhile (· ≠ 'y')) with
      | none => .error ("invalid year format")
      | some y => .ok (y, (cs.dropWhile (· ≠ 'y')).drop 1)
    else .ok (0, cs)
  match yearsRest with
  | .error e => .error e
  | .ok (years, rest) =>
    if rest.contains 'm' then
      match goAtoi (rest.takeWhile (· ≠ 'm')) with
      | none => .error ("invalid month format")
      | some m => .ok (years, m)
    else .ok (years, 0)

/-- Embeds Go parseDuration for strings like 5y6m, 30y, 6m: lower-cases
the input, splits it into year and month counts, and rejects a total of
zero months or less. -/
def parseDuration (duration : String) : Except String Int :=
  match parseDurationYM (goToLower duration.toList) with
  | .error e => .error e
  | .ok (years, months) =>
    let totalMonths := years * 12 + months
    if totalMonths ≤ 0 then .error ("duration must be greater than 0")
    else .ok totalMonths

/-- Embeds Go parseAppreciationRates: comma-separated rates, empty input
gives the one-element schedule [0].  The Go error text interpolates the
offending part; the constant core of the message is kept. -/
def parseAppreciationRates (input : String) : Except String (List ℚ) :=
  let cs := trimSpace input.toList
  if cs = [] then .ok [0]
  else
    let parts := splitOnC cs ','
    let ratesE := parts.mapM (fun p =>
      match parseAmount (String.mk p) with
      | none => Except.error ("invalid rate")
      | some v => Except.ok v)
    match ratesE with
    | .error e => .error e
    | .ok rates => if rates = [] then .ok [0] else .ok rates

end Calc

namespace Calc

theorem parseAmount_empty : parseAmount ("") = some 0 := by
  simp [parseAmount, trimSpace, goToLower]

theorem parseDuration_pos (s : String) (n : Int)
    (h : parseDuration s = .ok n) : 0 < n := by
  unfold parseDuration at h
  cases hym : parseDurationYM (goToLower s.toList) with
  | error e => rw [hym] at h; cases h
  | ok ym =>
    obtain ⟨years, months⟩ := ym
    rw [hym] at h
    simp only at h
    by_cases hle : years * 12 + months ≤ 0
    · rw [if_pos hle] at h; cases h
    · rw [if_neg hle] at h
      cases h
      omega

theorem parseDuration_reject :
    parseDuration ("0y") = .error ("duration must be greater than 0") := rfl

end Calc

namespace Calc

/-- Embeds the Go Config struct.  The Go program also keeps the parsed
appreciation-rate and tax-free-limit schedules in package-level arrays
set by parseConfig; they are carried here as the last two fields. -/
structure Config where
  inflationRate : ℚ
  include30Year : ℚ
  purchasePrice : ℚ
  currentMarketValue : ℚ
  downpayment : ℚ
  loanAmount : ℚ
  annualRate : ℚ
  totalMonths : ℕ
  monthlyRate : ℚ
  monthlyLoanPayment : ℚ
  annualInsurance : ℚ
  annualTaxes : ℚ
  monthlyExpenses : ℚ
  totalMonthlyBuyingCost : ℚ
  rentDeposit : ℚ
  monthlyRent : ℚ
  annualRentCosts : ℚ
  otherAnnualCosts : ℚ
  investmentReturnRate : ℚ
  totalMonthlyRentingCost : ℚ
  includeSelling : ℚ
  agentCommission : ℚ
  stagingCosts : ℚ
  capitalGainsTax : ℚ
  appreciationRates : List ℚ
  taxFreeLimits : List ℚ
deriving DecidableEq

/-- The user-entered field map (Go: currentInputs map[string]string).
A missing key reads as the empty string, as for a Go map. -/
def Inputs := List (String × String)

/-- Models a read of the Go input map. -/
def getInput (inputs : Inputs) (key : String) : String :=
  (List.lookup key inputs).getD ("")

/-- Embeds Go getFloatValue: parseAmount applied to the raw field. -/
def getFloatValue (inputs : Inputs) (key : String) : Option ℚ :=
  parseAmount (getInput inputs key)

/-- Turns the Go pattern `if err != nil { return fmt.Errorf(msg) }` into
Except, keeping the constant part of the message. -/
def req (o : Option ℚ) (msg : String) : Except String ℚ :=
  match o with
  | some v => .ok v
  | none => .error msg

/-- Same for fields parsed with a duration parser (Go getIntValue). -/
def reqD (o : Except String Int) (msg : String) : Except String Int :=
  match o with
  | .ok v => .ok v
  | .error _ => .error msg

/-- Models a Go float64 division: when the denominator is zero the float
result is non-finite (Inf or NaN), modelled as none. -/
def fdiv (a b : ℚ) : Option ℚ := if b = 0 then none else some (a / b)

/-- Embeds Go calculateMonthlyPayment (source lines 657-667):
if monthlyRate == 0, principal / months; otherwise
principal * (monthlyRate * factor) / (factor - 1) with
factor = (1+monthlyRate)^months.  The Go function returns a bare float64
and has no error return; a zero denominator yields a non-finite float,
modelled by none. -/
def calculateMonthlyPayment (principal monthlyRate : ℚ) (months : ℤ) : Option ℚ :=
  if monthlyRate = 0 then fdiv principal (months : ℚ)
  else
    fdiv (principal * (monthlyRate * (1 + monthlyRate) ^ months))
      ((1 + monthlyRate) ^ months - 1)

/-- The value computed by Go calculateMonthlyPayment on the domain where
the denominator is non-zero (the only way the program reaches it:
parseConfig validates months > 0 through parseDuration first).  Uses
the Lean convention x / 0 = 0 outside that domain. -/
def calculateMonthlyPaymentVal (principal monthlyRate : ℚ) (months : ℤ) : ℚ :=
  if monthlyRate = 0 then principal / (months : ℚ)
  else principal * (monthlyRate * (1 + monthlyRate) ^ months) /
    ((1 + monthlyRate) ^ months - 1)

/-- One step of the Go amortization balance update: the interest for the
month is balance*rate, the principal portion is payment minus interest,
and the balance drops by the principal portion. -/
def amortStep (payment rate balance : ℚ) : ℚ :=
  balance - (payment - balance * rate)

/-- k iterations of amortStep (the balance simulation loop that
parseConfig runs for the sell-vs-keep arm, and the balance column of
populateMonthlyCosts). -/
def amortIter (payment rate balance : ℚ) : ℕ → ℚ
  | 0 => balance
  | k + 1 => amortStep payment rate (amortIter payment rate balance k)

end Calc

namespace Calc

/-- Builds a Config record from the branch-specific fields, adding the
derived monthly totals that Go parseConfig computes after its scenario
branches (totalMonthlyBuyingCost and totalMonthlyRentingCost). -/
def mkConfig (inflationRate include30Year purchasePrice currentMarketValue downpayment
    loanAmount annualRate : ℚ) (totalMonths : ℕ)
    (monthlyRate monthlyLoanPayment annualInsurance annualTaxes monthlyExpenses
    rentDeposit monthlyRent annualRentCosts otherAnnualCosts investmentReturnRate
    includeSelling agentCommission stagingCosts capitalGainsTax : ℚ)
    (appreciationRates taxFreeLimits : List ℚ) : Config :=
  { inflationRate := inflationRate
    include30Year := include30Year
    purchasePrice := purchasePrice
    currentMarketValue := currentMarketValue
    downpayment := downpayment
    loanAmount := loanAmount
    annualRate := annualRate
    totalMonths := totalMonths
    monthlyRate := monthlyRate
    monthlyLoanPayment := monthlyLoanPayment
    annualInsurance := annualInsurance
    annualTaxes := annualTaxes
    monthlyExpenses := monthlyExpenses
    totalMonthlyBuyingCost :=
      monthlyLoanPayment + ((annualInsurance + annualTaxes) / 12 + monthlyExpenses)
    rentDeposit := rentDeposit
    monthlyRent := monthlyRent
    annualRentCosts := annualRentCosts
    otherAnnualCosts := otherAnnualCosts
    investmentReturnRate := investmentReturnRate
    totalMonthlyRentingCost := monthlyRent + (annualRentCosts / 12 + otherAnnualCosts / 12)
    includeSelling := includeSelling
    agentCommission := agentCommission
    stagingCosts := stagingCosts
    capitalGainsTax := capitalGainsTax
    appreciationRates := appreciationRates
    taxFreeLimits := taxFreeLimits }

/-- Embeds Go parseConfig (source lines 144-338).  Fields whose Go parse
errors are replaced by defaults keep that behaviour; fields whose errors
abort keep the constant part of the Go message.  Note the purchase-price
and current-market-value guards reject only the exact value zero. -/
def parseConfig (inputs : Inputs) (isSellVsKeep : Bool) : Except String Config := do
  let inflationRate ← req (getFloatValue inputs ("inflation_rate")) ("invalid inflation rate")
  let include30Year := (getFloatValue inputs ("include_30year")).getD 0
  let annualInsurance ← req (getFloatValue inputs ("annual_insurance")) ("invalid annual insurance")
  let annualTaxes ← req (getFloatValue inputs ("annual_taxes")) ("invalid annual taxes")
  let monthlyExpenses ← req (getFloatValue inputs ("monthly_expenses")) ("invalid monthly expenses")
  let appreciationRates ←
    match parseAppreciationRates (getInput inputs ("appreciation_rate")) with
    | .error _ => Except.error ("invalid appreciation rate")
    | .ok v => Except.ok v
  let rentDeposit ← req (getFloatValue inputs ("rent_deposit")) ("invalid rental deposit")
  let monthlyRent ← req (getFloatValue inputs ("monthly_rent")) ("invalid monthly rent")
  let annualRentCosts ← req (getFloatValue inputs ("annual_rent_costs")) ("invalid annual rent costs")
  let otherAnnualCosts ← req (getFloatValue inputs ("other_annual_costs")) ("invalid other annual costs")
  let investmentReturnRate ← req (getFloatValue inputs ("investment_return_rate")) ("invalid investment return rate")
  let includeSelling := (getFloatValue inputs ("include_selling")).getD 0
  let agentCommission := (getFloatValue inputs ("agent_commission")).getD 0
  let stagingCosts := (getFloatValue inputs ("staging_costs")).getD 0
  let taxFreeLimits :=
    match parseAppreciationRates (getInput inputs ("tax_free_limit")) with
    | .error _ => [(0 : ℚ)]
    | .ok v => v
  let capitalGainsTax := (getFloatValue inputs ("capital_gains_tax")).getD 0
  let purchasePrice ←
    match getFloatValue inputs ("purchase_price") with
    | none => Except.error ("invalid purchase price - cannot be zero")
    | some v =>
        if v = 0 then Except.error ("invalid purchase price - cannot be zero")
        else Except.ok v
  let loanAmount ← req (getFloatValue inputs ("loan_amount")) ("invalid loan amount")
  if isSellVsKeep then do
    let currentMarketValue ←
      match getFloatValue inputs ("current_market_value") with
      | none => Except.error ("invalid current market value - cannot be zero")
      | some v =>
          if v = 0 then Except.error ("invalid current market value - cannot be zero")
          else Except.ok v
    if loanAmount > 0 then do
      let annualRate ← req (getFloatValue inputs ("loan_rate")) ("invalid loan rate")
      let originalLoanMonths ← reqD (parseDuration (getInput inputs ("loan_term"))) ("invalid loan term")
      let remainingLoanMonths ← reqD (parseDuration (getInput inputs ("remaining_loan_term"))) ("invalid remaining loan term")
      let monthlyRate := annualRate / 100 / 12
      let originalPayment := calculateMonthlyPaymentVal loanAmount monthlyRate originalLoanMonths
      let monthsElapsed := originalLoanMonths - remainingLoanMonths
      let remainingBalance := amortIter originalPayment monthlyRate loanAmount monthsElapsed.toNat
      let totalMonths := remainingLoanMonths.toNat
      let monthlyLoanPayment := calculateMonthlyPaymentVal remainingBalance monthlyRate remainingLoanMonths
      let downpayment := currentMarketValue - remainingBalance
      let loanAmount := remainingBalance
      pure (mkConfig inflationRate include30Year purchasePrice currentMarketValue downpayment
        loanAmount annualRate totalMonths monthlyRate monthlyLoanPayment annualInsurance
        annualTaxes monthlyExpenses rentDeposit monthlyRent annualRentCosts otherAnnualCosts
        investmentReturnRate includeSelling agentCommission stagingCosts capitalGainsTax
        appreciationRates taxFreeLimits)
    else
      pure (mkConfig inflationRate include30Year purchasePrice currentMarketValue
        currentMarketValue 0 0 0 0 0 annualInsurance
        annualTaxes monthlyExpenses rentDeposit monthlyRent annualRentCosts otherAnnualCosts
        investmentReturnRate includeSelling agentCommission stagingCosts capitalGainsTax
        appreciationRates taxFreeLimits)
  else do
    let downpayment := purchasePrice - loanAmount
    if loanAmount > 0 then do
      let annualRate ← req (getFloatValue inputs ("loan_rate")) ("invalid loan rate")
      let totalMonthsI ← reqD (parseDuration (getInput inputs ("loan_term"))) ("invalid loan term")
      let monthlyRate := annualRate / 100 / 12
      let monthlyLoanPayment := calculateMonthlyPaymentVal loanAmount monthlyRate totalMonthsI
      pure (mkConfig inflationRate include30Year purchasePrice 0 downpayment
        loanAmount annualRate totalMonthsI.toNat monthlyRate monthlyLoanPayment annualInsurance
        annualTaxes monthlyExpenses rentDeposit monthlyRent annualRentCosts otherAnnualCosts
        investmentReturnRate includeSelling agentCommission stagingCosts capitalGainsTax
        appreciationRates taxFreeLimits)
    else
      pure (mkConfig inflationRate include30Year purchasePrice 0 downpayment
        loanAmount 0 0 0 0 annualInsurance
        annualTaxes monthlyExpenses rentDeposit monthlyRent annualRentCosts otherAnnualCosts
        investmentReturnRate includeSelling agentCommission stagingCosts capitalGainsTax
        appreciationRates taxFreeLimits)

end Calc

namespace Calc

/-- The fixed maximum projection horizon of populateMonthlyCosts
(Go: maxMonths := 360). -/
def maxMonths : ℕ := 360

/-- The monthly recurring ownership expenses before inflation
(Go: (annualInsurance+annualTaxes)/12 + monthlyExpenses). -/
def monthlyRecurringExpenses (cfg : Config) : ℚ :=
  (cfg.annualInsurance + cfg.annualTaxes) / 12 + cfg.monthlyExpenses

/-- The annual inflation factor applied at every 12th month boundary. -/
def inflFactor (cfg : Config) : ℚ := 1 + cfg.inflationRate / 100

/-- Running value of the Go loop variable currentRecurringExpenses when
month i is processed: it is multiplied by the inflation factor at the
start of every 12th month after the first (i > 0 and i % 12 == 0). -/
def currentRecurringExpenses (cfg : Config) : ℕ → ℚ
  | 0 => monthlyRecurringExpenses cfg
  | i + 1 =>
      if (i + 1) % 12 = 0 then currentRecurringExpenses cfg i * inflFactor cfg
      else currentRecurringExpenses cfg i

/-- Running value of the Go loop variable currentRentingCost when month
i is processed (same inflation bumps, starting from
config.totalMonthlyRentingCost). -/
def currentRentingCost (cfg : Config) : ℕ → ℚ
  | 0 => cfg.totalMonthlyRentingCost
  | i + 1 =>
      if (i + 1) % 12 = 0 then currentRentingCost cfg i * inflFactor cfg
      else currentRentingCost cfg i

/-- Running value of the Go loop variable currentBalance after i months
have been processed; the balance only changes while i < totalMonths. -/
def currentBalance (cfg : Config) : ℕ → ℚ
  | 0 => cfg.loanAmount
  | i + 1 =>
      if i < cfg.totalMonths then
        amortStep cfg.monthlyLoanPayment cfg.monthlyRate (currentBalance cfg i)
      else currentBalance cfg i

/-- Running value of the Go loop variable totalPrincipalPaid after i
months have been processed. -/
def totalPrincipalPaid (cfg : Config) : ℕ → ℚ
  | 0 => 0
  | i + 1 =>
      if i < cfg.totalMonths then
        totalPrincipalPaid cfg i +
          (cfg.monthlyLoanPayment - currentBalance cfg i * cfg.monthlyRate)
      else totalPrincipalPaid cfg i

/-- Running value of the Go loop variable totalInterestPaid after i
months have been processed. -/
def totalInterestPaid (cfg : Config) : ℕ → ℚ
  | 0 => 0
  | i + 1 =>
      if i < cfg.totalMonths then
        totalInterestPaid cfg i + currentBalance cfg i * cfg.monthlyRate
      else totalInterestPaid cfg i

/-- Entry i of the Go array monthlyBuyingCosts: loan payment plus the
inflated recurring expenses while the loan runs, recurring expenses only
afterwards. -/
def monthlyBuyingCostF (cfg : Config) (i : ℕ) : ℚ :=
  if i < cfg.totalMonths then cfg.monthlyLoanPayment + currentRecurringExpenses cfg i
  else currentRecurringExpenses cfg i

/-- Entry i of the Go array monthlyRentingCosts. -/
def monthlyRentingCostF (cfg : Config) (i : ℕ) : ℚ :=
  currentRentingCost cfg i

/-- Entry i of the Go array remainingLoanBalance: the balance stored
after the payment of month i, and 0 once the loan has ended. -/
def remainingLoanBalanceF (cfg : Config) (i : ℕ) : ℚ :=
  if i < cfg.totalMonths then currentBalance cfg (i + 1) else 0

/-- Entry i of the Go array cumulativePrincipalPaid. -/
def cumulativePrincipalPaidF (cfg : Config) (i : ℕ) : ℚ :=
  totalPrincipalPaid cfg (i + 1)

/-- Entry i of the Go array cumulativeInterestPaid. -/
def cumulativeInterestPaidF (cfg : Config) (i : ℕ) : ℚ :=
  totalInterestPaid cfg (i + 1)

/-- The Go array monthlyBuyingCosts built by populateMonthlyCosts. -/
def monthlyBuyingCosts (cfg : Config) : List ℚ :=
  (List.range maxMonths).map (monthlyBuyingCostF cfg)

/-- The Go array monthlyRentingCosts built by populateMonthlyCosts. -/
def monthlyRentingCosts (cfg : Config) : List ℚ :=
  (List.range maxMonths).map (monthlyRentingCostF cfg)

/-- The Go array remainingLoanBalance built by populateMonthlyCosts. -/
def remainingLoanBalance (cfg : Config) : List ℚ :=
  (List.range maxMonths).map (remainingLoanBalanceF cfg)

/-- The Go array cumulativePrincipalPaid built by populateMonthlyCosts. -/
def cumulativePrincipalPaid (cfg : Config) : List ℚ :=
  (List.range maxMonths).map (cumulativePrincipalPaidF cfg)

end Calc

namespace Calc

/-- One month of Go calculateKeepInvestmentTracking: negative buying
cost (net income) is invested, positive cost is drawn from the invested
value first with only the uncovered remainder accumulating as real
out-of-pocket cost, and the invested value is then compounded.  The
state is (investmentValue, totalRealCosts). -/
def keepStep (rate : ℚ) (s : ℚ × ℚ) (monthlyCost : ℚ) : ℚ × ℚ :=
  let afterTx : ℚ × ℚ :=
    if monthlyCost < 0 then (s.1 + -monthlyCost, s.2)
    else if monthlyCost > 0 then
      if s.1 ≥ monthlyCost then (s.1 - monthlyCost, s.2)
      else (0, s.2 + (monthlyCost - s.1))
    else s
  (afterTx.1 * (1 + rate), afterTx.2)

/-- State of the Go keep-tracking loop after n months over the given
monthly cost series (investmentValue, totalRealCosts), starting from
(0, 0).  The monthly rate is investmentReturnRate/100/12. -/
def keepState (rate : ℚ) (costs : List ℚ) : ℕ → ℚ × ℚ
  | 0 => (0, 0)
  | n + 1 => keepStep rate (keepState rate costs n) (costs.getD n 0)

/-- Entry i of the Go array monthlyKeepInvestmentValue (stored after the
compounding of month i). -/
def monthlyKeepInvestmentValueF (cfg : Config) (costs : List ℚ) (i : ℕ) : ℚ :=
  (keepState (cfg.investmentReturnRate / 100 / 12) costs (i + 1)).1

/-- Entry i of the Go array monthlyKeepRealCosts. -/
def monthlyKeepRealCostsF (cfg : Config) (costs : List ℚ) (i : ℕ) : ℚ :=
  (keepState (cfg.investmentReturnRate / 100 / 12) costs (i + 1)).2

/-- Entry i of the Go array monthlyKeepNetPosition
(investment value minus cumulative real costs). -/
def monthlyKeepNetPositionF (cfg : Config) (costs : List ℚ) (i : ℕ) : ℚ :=
  monthlyKeepInvestmentValueF cfg costs i - monthlyKeepRealCostsF cfg costs i

/-- The invested value of Go calculateRentingNetWorth after n months:
start from downpayment - rentDeposit; each month add the savings
(buying cost minus renting cost) and then compound at the monthly
investment rate. -/
def rentingInvestmentValue (cfg : Config) (buying renting : List ℚ) : ℕ → ℚ
  | 0 => cfg.downpayment - cfg.rentDeposit
  | n + 1 =>
      (rentingInvestmentValue cfg buying renting n + (buying.getD n 0 - renting.getD n 0)) *
        (1 + cfg.investmentReturnRate / 100 / 12)

/-- Embeds Go calculateRentingNetWorth (source lines 1512-1534): the
dollar-cost-averaged investment value plus 75% of the recoverable
deposit. -/
def calculateRentingNetWorth (cfg : Config) (buying renting : List ℚ) (months : ℕ) : ℚ :=
  rentingInvestmentValue cfg buying renting months + cfg.rentDeposit * (75 / 100)

end Calc

namespace Calc

/-- The clamped schedule read shared by the appreciation loops
(Go: rateIndex := year; if rateIndex >= len { rateIndex = len - 1 }).
An empty schedule would make Go panic; the engine never builds one
(parseAppreciationRates always returns at least one entry), and the
claims below carry nonempty hypotheses where it matters. -/
def rateAt (rates : List ℚ) (i : ℕ) : ℚ :=
  rates.getD (min i (rates.length - 1)) 0

/-- The whole-year part of the appreciation compounding loop that the
source repeats inline in calculateSaleProceeds and calculateNetWorth:
multiply the base by (1 + rate/100) once per completed year, clamping
the schedule index to the last entry. -/
def appreciatedValueYears (startingPrice : ℚ) (rates : List ℚ) (years : ℕ) : ℚ :=
  (List.range years).foldl (fun v year => v * (1 + rateAt rates year / 100)) startingPrice

/-- The appreciation-compounded value at a month offset: whole years
via appreciatedValueYears, then one fractional-year factor
(1 + rate/100)^(rem/12) when rem = months % 12 is positive.  The
fractional power is Go math.Pow with a non-integer exponent, hence ℝ. -/
noncomputable def appreciatedValue (startingPrice : ℚ) (rates : List ℚ) (months : ℕ) : ℝ :=
  let years := months / 12
  let rem := months % 12
  if rem > 0 then
    (appreciatedValueYears startingPrice rates years : ℝ) *
      (1 + (rateAt rates years : ℝ) / 100) ^ ((rem : ℝ) / 12)
  else (appreciatedValueYears startingPrice rates years : ℝ)

/-- Models a Go slice read l[i] with an int index: none is the
index-out-of-range panic (negative or past the end). -/
def goRead (l : List ℚ) (i : ℤ) : Option ℚ :=
  if 0 ≤ i then l[i.toNat]? else none

/-- The loan payoff lookup of calculateSaleProceeds and
calculateNetWorth: monthIndex := months - 1, clamped from above to the
last index of the balance series (no clamp from below). -/
def loanPayoffAt (balance : List ℚ) (months : ℕ) : Option ℚ :=
  goRead balance
    (if (months : ℤ) - 1 ≥ (balance.length : ℤ) then (balance.length : ℤ) - 1
     else (months : ℤ) - 1)

/-- The year-indexed tax-free-limit index of calculateSaleProceeds:
years - 1, floor-clamped to 0, then cap-clamped to the last index. -/
def taxFreeLimitIndex (len : ℕ) (months : ℕ) : ℤ :=
  let idx : ℤ := (months / 12 : ℕ) - 1
  let idx := if idx < 0 then 0 else idx
  if idx ≥ (len : ℤ) then (len : ℤ) - 1 else idx

/-- The exemption applied by calculateSaleProceeds at a sale month. -/
def exemptionAt (limits : List ℚ) (months : ℕ) : ℚ :=
  limits.getD (taxFreeLimitIndex limits.length months).toNat 0

/-- The named results of Go calculateSaleProceeds. -/
structure SaleOutcome where
  salePrice : ℝ
  totalSellingCosts : ℝ
  loanPayoff : ℚ
  capitalGains : ℝ
  taxOnGains : ℝ
  netProceeds : ℝ

/-- Embeds Go calculateSaleProceeds of the two-scenario program (source
lines 1174-1245).  The appreciation base is currentMarketValue when that
is positive (sell-vs-keep), else purchasePrice; selling costs are
deducted inside the capital gain; the exemption comes from the
year-indexed schedule.  none models the slice panic of the loan payoff
read at months = 0 with a nonempty series (monthIndex = -1). -/
noncomputable def calculateSaleProceeds (cfg : Config) (balance : List ℚ) (months : ℕ) :
    Option SaleOutcome :=
  let startingPrice := if cfg.currentMarketValue > 0 then cfg.currentMarketValue else cfg.purchasePrice
  let salePrice := appreciatedValue startingPrice cfg.appreciationRates months
  let agentFee := salePrice * ((cfg.agentCommission : ℝ) / 100)
  let totalSellingCosts := agentFee + (cfg.stagingCosts : ℝ)
  match loanPayoffAt balance months with
  | none => none
  | some lp =>
    let capitalGains := salePrice - (cfg.purchasePrice : ℝ) - totalSellingCosts
    let taxableGains := max 0 (capitalGains - (exemptionAt cfg.taxFreeLimits months : ℝ))
    let taxOnGains := taxableGains * ((cfg.capitalGainsTax : ℝ) / 100)
    some
      { salePrice := salePrice
        totalSellingCosts := totalSellingCosts
        loanPayoff := lp
        capitalGains := capitalGains
        taxOnGains := taxOnGains
        netProceeds := salePrice - totalSellingCosts - (lp : ℝ) - taxOnGains }

/-- Embeds calculateSaleProceeds of the older buy-vs-rent program
(source lines 2678-2729), which always starts from purchasePrice, does
NOT deduct selling costs from the capital gain, and uses a single
scalar tax-free limit. -/
noncomputable def calculateSaleProceedsV2 (purchasePrice agentCommission stagingCosts
    taxFreeLimit capitalGainsTax : ℚ) (rates balance : List ℚ) (months : ℕ) :
    Option SaleOutcome :=
  let salePrice := appreciatedValue purchasePrice rates months
  let agentFee := salePrice * ((agentCommission : ℝ) / 100)
  let totalSellingCosts := agentFee + (stagingCosts : ℝ)
  match loanPayoffAt balance months with
  | none => none
  | some lp =>
    let capitalGains := salePrice - (purchasePrice : ℝ)
    let taxableGains := max 0 (capitalGains - (taxFreeLimit : ℝ))
    let taxOnGains := taxableGains * ((capitalGainsTax : ℝ) / 100)
    some
      { salePrice := salePrice
        totalSellingCosts := totalSellingCosts
        loanPayoff := lp
        capitalGains := capitalGains
        taxOnGains := taxOnGains
        netProceeds := salePrice - totalSellingCosts - (lp : ℝ) - taxOnGains }

/-- The cumulative-expenditure loop of calculateNetWorth: sum of
costs[0..n), reading each entry with a Go slice access (none once any
index is out of range). -/
def sumCosts (costs : List ℚ) : ℕ → Option ℚ
  | 0 => some 0
  | n + 1 =>
      match sumCosts costs n, costs[n]? with
      | some s, some c => some (s + c)
      | _, _ => none

/-- Embeds Go calculateNetWorth of the two-scenario program (source
lines 1354-1404): returns (assetValue, totalExpenditure, netWorth).
The expenditure loop reads monthlyBuyingCosts[i] for every i < months
with no clamp; the loan-balance read is clamped from above. -/
noncomputable def calculateNetWorth (cfg : Config) (buying balance : List ℚ) (months : ℕ) :
    Option (ℝ × ℝ × ℝ) :=
  let assetValue := appreciatedValue cfg.purchasePrice cfg.appreciationRates months
  match sumCosts buying months with
  | none => none
  | some s =>
    let totalExpenditure : ℝ := (cfg.downpayment : ℝ) + (s : ℝ)
    if cfg.includeSelling > 0 then
      match calculateSaleProceeds cfg balance months with
      | none => none
      | some o => some (assetValue, totalExpenditure, o.netProceeds)
    else
      match loanPayoffAt balance months with
      | none => none
      | some lb => some (assetValue, totalExpenditure, assetValue - (lb : ℝ))

end Calc

namespace Calc

/-- A shared all-zero configuration used to instantiate theorems with
hypotheses at concrete inputs. -/
def baseConfig : Config :=
  { inflationRate := 0
    include30Year := 0
    purchasePrice := 0
    currentMarketValue := 0
    downpayment := 0
    loanAmount := 0
    annualRate := 0
    totalMonths := 0
    monthlyRate := 0
    monthlyLoanPayment := 0
    annualInsurance := 0
    annualTaxes := 0
    monthlyExpenses := 0
    totalMonthlyBuyingCost := 0
    rentDeposit := 0
    monthlyRent := 0
    annualRentCosts := 0
    otherAnnualCosts := 0
    investmentReturnRate := 0
    totalMonthlyRentingCost := 0
    includeSelling := 0
    agentCommission := 0
    stagingCosts := 0
    capitalGainsTax := 0
    appreciationRates := [0]
    taxFreeLimits := [0] }

/-- C2, counterexample.  The claim says calculateMonthlyPayment signals
a distinguishable domain error for months ≤ 0.  At months = 0 the Go
function instead divides by zero in both branches (months itself when
monthlyRate == 0, factor - 1 = 0 otherwise), silently producing a
non-finite float, modelled by none; it has no error return at all. -/
theorem c2_counterexample :
    calculateMonthlyPayment 400000 0 0 = none ∧
    calculateMonthlyPayment 400000 (13 / 2400) 0 = none := by
  constructor
  · simp [calculateMonthlyPayment, fdiv]
  · simp [calculateMonthlyPayment, fdiv]

/-- C2, amended.  For months n ≠ 0 and zero rate the payment is
principal/months; for nonzero rate and (1+r)^n ≠ 1 it is the annuity
formula; at n = 0 the function produces a non-finite float (none), not
a domain error.  The domain error for non-positive durations is raised
upstream: parseDuration only ever returns positive month counts. -/
theorem c2_monthly_payment (p r : ℚ) (n : ℤ) :
    (r = 0 → n ≠ 0 → calculateMonthlyPayment p r n = some (p / (n : ℚ))) ∧
    (r ≠ 0 → (1 + r) ^ n ≠ 1 →
      calculateMonthlyPayment p r n =
        some (p * (r * (1 + r) ^ n) / ((1 + r) ^ n - 1))) ∧
    calculateMonthlyPayment p r 0 = none ∧
    (∀ s m, parseDuration s = .ok m → 0 < m) := by
  refine ⟨?_, ?_, ?_, fun s m h => parseDuration_pos s m h⟩
  · intro hr hn
    have : ((n : ℚ)) ≠ 0 := by exact_mod_cast hn
    simp [calculateMonthlyPayment, hr, fdiv, this]
  · intro hr hf
    have : (1 + r) ^ n - 1 ≠ 0 := sub_ne_zero.mpr hf
    simp [calculateMonthlyPayment, hr, fdiv, this]
  · by_cases hr : r = 0
    · simp [calculateMonthlyPayment, hr, fdiv]
    · simp [calculateMonthlyPayment, hr, fdiv]

/-- C2, witness: the zero-rate branch at principal 400000 over 360
months. -/
theorem c2_witness : calculateMonthlyPayment 400000 0 360 = some (400000 / 360) :=
  (c2_monthly_payment 400000 0 360).1 rfl (by norm_num)

end Calc

namespace Calc

/-- Closed form of the balance loop: after k steps the balance is
L(1+r)^k - M * (geometric sum). -/
theorem amortIter_closed (payment rate balance : ℚ) (k : ℕ) :
    amortIter payment rate balance k =
      balance * (1 + rate) ^ k -
        payment * (∑ j ∈ Finset.range k, (1 + rate) ^ j) := by
  induction k with
  | zero => simp [amortIter]
  | succ k ih =>
      rw [amortIter, amortStep, ih, geom_sum_succ]
      ring

/-- While the loan runs, the balance column of populateMonthlyCosts is
the amortStep iteration. -/
theorem currentBalance_eq_amortIter (cfg : Config) (k : ℕ) (hk : k ≤ cfg.totalMonths) :
    currentBalance cfg k =
      amortIter cfg.monthlyLoanPayment cfg.monthlyRate cfg.loanAmount k := by
  induction k with
  | zero => simp [currentBalance, amortIter]
  | succ k ih =>
      rw [currentBalance, amortIter, if_pos (by omega), ih (by omega)]

/-- The cumulative principal column always equals the initial loan
amount minus the running balance. -/
theorem totalPrincipalPaid_eq (cfg : Config) (k : ℕ) :
    totalPrincipalPaid cfg k = cfg.loanAmount - currentBalance cfg k := by
  induction k with
  | zero => simp [totalPrincipalPaid, currentBalance]
  | succ k ih =>
      by_cases h : k < cfg.totalMonths
      · rw [totalPrincipalPaid, currentBalance, if_pos h, if_pos h, ih, amortStep]
        ring
      · rw [totalPrincipalPaid, currentBalance, if_neg h, if_neg h, ih]

/-- Reading a mapped range list at an in-range index. -/
theorem rangeMap_getD (f : ℕ → ℚ) (m i : ℕ) (hi : i < m) :
    ((List.range m).map f).getD i 0 = f i := by
  rw [List.getD_eq_getElem?_getD, List.getElem?_map, List.getElem?_range hi]
  rfl

/-- With the annuity payment, the balance after the full term is exactly
zero. -/
theorem currentBalance_term_zero (cfg : Config)
    (hr : 0 < cfg.monthlyRate) (hn : 0 < cfg.totalMonths)
    (hpay : cfg.monthlyLoanPayment =
      calculateMonthlyPaymentVal cfg.loanAmount cfg.monthlyRate (cfg.totalMonths : ℤ)) :
    currentBalance cfg cfg.totalMonths = 0 := by
  have hr0 : cfg.monthlyRate ≠ 0 := ne_of_gt hr
  have hx1 : (1 : ℚ) < 1 + cfg.monthlyRate := by linarith
  have hf : (1 : ℚ) < (1 + cfg.monthlyRate) ^ cfg.totalMonths :=
    one_lt_pow₀ hx1 (by omega)
  have hfne : (1 + cfg.monthlyRate) ^ cfg.totalMonths - 1 ≠ 0 := by linarith
  have hxne : (1 + cfg.monthlyRate) ≠ 1 := by linarith
  rw [currentBalance_eq_amortIter cfg cfg.totalMonths le_rfl, amortIter_closed]
  rw [geom_sum_eq hxne]
  rw [hpay, calculateMonthlyPaymentVal, if_neg hr0, zpow_natCast]
  have hden : (1 + cfg.monthlyRate) - 1 ≠ 0 := by
    intro h
    apply hr0
    linarith
  field_simp
  ring

/-- C3, theorem.  For positive rate and positive term, with the fixed
payment from the annuity formula, the amortization loop of
populateMonthlyCosts closes the loan: the cumulative principal over the
full term equals the loan amount and the remaining balance after the
final month is zero (exactly, in exact arithmetic), both as loop values
and as entries of the stored series. -/
theorem c3_amortization_closes (cfg : Config)
    (hr : 0 < cfg.monthlyRate) (hn : 0 < cfg.totalMonths) (hn360 : cfg.totalMonths ≤ 360)
    (hpay : cfg.monthlyLoanPayment =
      calculateMonthlyPaymentVal cfg.loanAmount cfg.monthlyRate (cfg.totalMonths : ℤ)) :
    totalPrincipalPaid cfg cfg.totalMonths = cfg.loanAmount ∧
    currentBalance cfg cfg.totalMonths = 0 ∧
    (remainingLoanBalance cfg).getD (cfg.totalMonths - 1) 0 = 0 ∧
    (cumulativePrincipalPaid cfg).getD (cfg.totalMonths - 1) 0 = cfg.loanAmount := by
  have hz := currentBalance_term_zero cfg hr hn hpay
  have hp : totalPrincipalPaid cfg cfg.totalMonths = cfg.loanAmount := by
    rw [totalPrincipalPaid_eq, hz, sub_zero]
  refine ⟨hp, hz, ?_, ?_⟩
  · rw [remainingLoanBalance, rangeMap_getD _ _ _ (by simp only [maxMonths]; omega), remainingLoanBalanceF,
      if_pos (by omega)]
    have : cfg.totalMonths - 1 + 1 = cfg.totalMonths := by omega
    rw [this, hz]
  · rw [cumulativePrincipalPaid, rangeMap_getD _ _ _ (by simp only [maxMonths]; omega), cumulativePrincipalPaidF]
    have : cfg.totalMonths - 1 + 1 = cfg.totalMonths := by omega
    rw [this, hp]

/-- C3, witness: a 1000 loan at 1% monthly over 12 months. -/
theorem c3_witness :
    totalPrincipalPaid
      { baseConfig with
        loanAmount := 1000
        monthlyRate := 1 / 100
        totalMonths := 12
        monthlyLoanPayment := calculateMonthlyPaymentVal 1000 (1 / 100) 12 } 12 = 1000 := by
  have h :=
    c3_amortization_closes
      { baseConfig with
        loanAmount := 1000
        monthlyRate := 1 / 100
        totalMonths := 12
        monthlyLoanPayment := calculateMonthlyPaymentVal 1000 (1 / 100) 12 }
      (by norm_num) (by norm_num) (by norm_num) rfl
  exact h.1

end Calc

namespace Calc

/-- The whole-year appreciation loop as a closed product. -/
theorem appreciatedValueYears_eq_prod (base : ℚ) (rates : List ℚ) (y : ℕ) :
    appreciatedValueYears base rates y =
      base * ∏ i ∈ Finset.range y, (1 + rateAt rates i / 100) := by
  induction y with
  | zero => simp [appreciatedValueYears]
  | succ y ih =>
      unfold appreciatedValueYears at ih ⊢
      rw [List.range_succ, List.foldl_append, List.foldl_cons, List.foldl_nil, ih,
        Finset.prod_range_succ]
      ring

/-- C4, theorem.  The appreciation-compounded value at month m is the
base times one (1 + rate/100) factor per completed year (schedule index
clamped to the last entry) times, when m % 12 > 0, one fractional-year
factor (1 + rate/100)^((m%12)/12); and for a one-entry schedule the
value at 12k months is exactly base*(1+r/100)^k. -/
theorem c4_appreciation (base : ℚ) (rates : List ℚ) (m : ℕ) (h : rates ≠ []) :
    appreciatedValue base rates m =
      ((base : ℝ) * ∏ i ∈ Finset.range (m / 12), (1 + (rateAt rates i : ℝ) / 100)) *
        (if 0 < m % 12 then
          (1 + (rateAt rates (m / 12) : ℝ) / 100) ^ (((m % 12 : ℕ) : ℝ) / 12) else 1) ∧
    ∀ (b r : ℚ) (k : ℕ), appreciatedValue b [r] (12 * k) = (b : ℝ) * (1 + (r : ℝ) / 100) ^ k := by
  constructor
  · unfold appreciatedValue
    by_cases hrem : 0 < m % 12
    · rw [if_pos hrem, if_pos hrem, appreciatedValueYears_eq_prod]
      push_cast
      ring
    · rw [if_neg hrem, if_neg hrem, appreciatedValueYears_eq_prod]
      push_cast
      ring
  · intro b r k
    unfold appreciatedValue
    have h12 : 12 * k % 12 = 0 := by omega
    have h12d : 12 * k / 12 = k := by omega
    rw [h12, h12d]
    simp only [lt_irrefl, if_false]
    rw [appreciatedValueYears_eq_prod]
    have hr : ∀ i : ℕ, (1 + rateAt [r] i / 100) = (1 + r / 100) := fun i => by simp [rateAt]
    have hprod : (∏ i ∈ Finset.range k, (1 + rateAt [r] i / 100)) = (1 + r / 100) ^ k := by
      simp only [hr, Finset.prod_const, Finset.card_range]
    rw [hprod]
    push_cast
    ring

/-- C4, witness: one-entry schedule with rate 10 over 24 months. -/
theorem c4_witness : appreciatedValue 100 [10] 24 = (100 : ℝ) * (1 + (10 : ℝ) / 100) ^ 2 := by
  have h := (c4_appreciation 100 [10] 24 (by simp)).2 100 10 2
  norm_num at h
  norm_num
  exact h

end Calc

namespace Calc

/-- The clamped exemption index as a natural-number min (the truncated
subtraction m/12 - 1 is exactly the floor clamp at 0). -/
theorem taxFreeLimitIndex_toNat (len m : ℕ) (h : 1 ≤ len) :
    (taxFreeLimitIndex len m).toNat = min (m / 12 - 1) (len - 1) := by
  unfold taxFreeLimitIndex
  dsimp only
  split_ifs with h1 h2 h2 <;> omega

/-- C5, theorem.  The capital-gains exemption for a sale at month m is
the tax-free-limit schedule entry at index m/12 - 1, floor-clamped to 0
and cap-clamped to the last index; in particular a sale at month 12
reads index 0, the year-1 exemption. -/
theorem c5_exemption_index (limits : List ℚ) (m : ℕ) (h : limits ≠ []) :
    exemptionAt limits m = limits.getD (min (m / 12 - 1) (limits.length - 1)) 0 ∧
    exemptionAt limits 12 = limits.getD 0 0 := by
  have hlen : 1 ≤ limits.length := List.length_pos.mpr h
  constructor
  · rw [exemptionAt, taxFreeLimitIndex_toNat _ _ hlen]
  · rw [exemptionAt, taxFreeLimitIndex_toNat _ _ hlen]
    norm_num

/-- C5, witness: a two-entry schedule read at month 12 gives the first
entry. -/
theorem c5_witness :
    exemptionAt [(250000 : ℚ), 500000] 12 = [(250000 : ℚ), 500000].getD 0 0 :=
  (c5_exemption_index [(250000 : ℚ), 500000] 12 (by simp)).2

end Calc

namespace Calc

/-- One keep-tracking step keeps the invested value non-negative when
the monthly rate is non-negative. -/
theorem keepStep_fst_nonneg (rate : ℚ) (h : 0 ≤ rate) (s : ℚ × ℚ) (hs : 0 ≤ s.1) (c : ℚ) :
    0 ≤ (keepStep rate s c).1 := by
  unfold keepStep
  dsimp only
  have h1 : (0 : ℚ) ≤ 1 + rate := by linarith
  split_ifs with hc hp hge
  · refine mul_nonneg ?_ h1
    show (0 : ℚ) ≤ s.1 + -c
    linarith
  · refine mul_nonneg ?_ h1
    show (0 : ℚ) ≤ s.1 - c
    linarith
  · simp
  · exact mul_nonneg hs h1

/-- One keep-tracking step never decreases the cumulative real cost. -/
theorem keepStep_snd_le (rate : ℚ) (s : ℚ × ℚ) (c : ℚ) : s.2 ≤ (keepStep rate s c).2 := by
  unfold keepStep
  dsimp only
  split_ifs with hc hp hge <;> (try dsimp only) <;> linarith

/-- The invested value of the keep-tracking loop stays non-negative. -/
theorem keepState_fst_nonneg (rate : ℚ) (costs : List ℚ) (h : 0 ≤ rate) (n : ℕ) :
    0 ≤ (keepState rate costs n).1 := by
  induction n with
  | zero => simp [keepState]
  | succ n ih => exact keepStep_fst_nonneg rate h _ ih _

/-- The cumulative real cost of the keep-tracking loop is monotone. -/
theorem keepState_snd_mono (rate : ℚ) (costs : List ℚ) (j i : ℕ) (hji : j ≤ i) :
    (keepState rate costs j).2 ≤ (keepState rate costs i).2 := by
  induction i with
  | zero =>
      have : j = 0 := by omega
      rw [this]
  | succ i ih =>
      rcases Nat.lt_or_ge j (i + 1) with hlt | hge
      · exact le_trans (ih (by omega)) (keepStep_snd_le rate _ _)
      · have : j = i + 1 := by omega
        rw [this]

/-- C10, theorem.  For a non-negative investment return rate, at every
index i of the 360-month keep-arm run over the buying-cost series: the
invested value is non-negative, the cumulative real out-of-pocket cost
is non-decreasing, and the net position is the invested value minus the
cumulative real cost. -/
theorem c10_keep_invariants (cfg : Config) (h : 0 ≤ cfg.investmentReturnRate)
    (i j : ℕ) (hi : i < 360) (hj : j ≤ i) :
    0 ≤ monthlyKeepInvestmentValueF cfg (monthlyBuyingCosts cfg) i ∧
    monthlyKeepRealCostsF cfg (monthlyBuyingCosts cfg) j ≤
      monthlyKeepRealCostsF cfg (monthlyBuyingCosts cfg) i ∧
    monthlyKeepNetPositionF cfg (monthlyBuyingCosts cfg) i =
      monthlyKeepInvestmentValueF cfg (monthlyBuyingCosts cfg) i -
        monthlyKeepRealCostsF cfg (monthlyBuyingCosts cfg) i := by
  have hrate : 0 ≤ cfg.investmentReturnRate / 100 / 12 := by positivity
  refine ⟨keepState_fst_nonneg _ _ hrate _, ?_, rfl⟩
  exact keepState_snd_mono _ _ _ _ (by omega)

/-- C10, witness: the all-zero configuration at indices 1 and 0. -/
theorem c10_witness :
    0 ≤ monthlyKeepInvestmentValueF baseConfig (monthlyBuyingCosts baseConfig) 1 ∧
    monthlyKeepRealCostsF baseConfig (monthlyBuyingCosts baseConfig) 0 ≤
      monthlyKeepRealCostsF baseConfig (monthlyBuyingCosts baseConfig) 1 ∧
    monthlyKeepNetPositionF baseConfig (monthlyBuyingCosts baseConfig) 1 =
      monthlyKeepInvestmentValueF baseConfig (monthlyBuyingCosts baseConfig) 1 -
        monthlyKeepRealCostsF baseConfig (monthlyBuyingCosts baseConfig) 1 :=
  c10_keep_invariants baseConfig (by norm_num [baseConfig]) 1 0 (by norm_num) (by norm_num)

end Calc

namespace Calc

/-- Under a constant monthly savings differential s and a deposit equal
to the downpayment, the dollar-cost-averaging loop is s times the sum
of the compounding factors (each deposit of month k compounds n-k
times, i.e. contributes x^(k+1) at the end reading backwards). -/
theorem rentingInvestmentValue_const_sum (cfg : Config) (buying renting : List ℚ) (s : ℚ)
    (n : ℕ) (hdep : cfg.rentDeposit = cfg.downpayment)
    (hs : ∀ k, k < n → buying.getD k 0 - renting.getD k 0 = s) :
    rentingInvestmentValue cfg buying renting n =
      s * ∑ k ∈ Finset.range n, (1 + cfg.investmentReturnRate / 100 / 12) ^ (k + 1) := by
  set x : ℚ := 1 + cfg.investmentReturnRate / 100 / 12 with hx
  induction n with
  | zero => simp [rentingInvestmentValue, hdep]
  | succ n ih =>
      rw [rentingInvestmentValue, hs n (by omega), ih (fun k hk => hs k (by omega))]
      rw [Finset.sum_range_succ']
      rw [Finset.sum_congr rfl (fun k _ => pow_succ x (k + 1)), ← Finset.sum_mul, zero_add,
        pow_one, ← hx]
      ring

/-- For a base above 1 the powers x^1..x^n summed are strictly below
n*x^n once n is at least 2. -/
theorem sum_pow_lt_n_mul (x : ℚ) (hx : 1 < x) (n : ℕ) (hn : 2 ≤ n) :
    ∑ k ∈ Finset.range n, x ^ (k + 1) < n * x ^ n := by
  have hle : ∀ k ∈ Finset.range n, x ^ (k + 1) ≤ x ^ n := by
    intro k hk
    have : k + 1 ≤ n := by
      have := Finset.mem_range.mp hk
      omega
    exact pow_le_pow_right₀ (le_of_lt hx) this
  have hzero : (0 : ℕ) ∈ Finset.range n := Finset.mem_range.mpr (by omega)
  have hstrict : x ^ (0 + 1) < x ^ n := by
    apply pow_lt_pow_right₀ hx
    omega
  calc ∑ k ∈ Finset.range n, x ^ (k + 1) < ∑ _k ∈ Finset.range n, x ^ n :=
        Finset.sum_lt_sum hle ⟨0, hzero, hstrict⟩
    _ = n * x ^ n := by rw [Finset.sum_const, Finset.card_range, nsmul_eq_mul]

/-- C6, theorem (amended).  With the rent deposit equal to the
downpayment and a positive monthly investment rate i, a constant
monthly differential s over n months produces exactly the future value
of an annuity-due, s*(1+i)*((1+i)^n - 1)/i (each deposit is compounded
from the month it is added, one factor more than an ordinary annuity);
and for n ≥ 2 and s > 0 it is strictly below s*n*(1+i)^n (at n = 1 the
two sides are equal, so strictness starts at n = 2). -/
theorem c6_renting_annuity (cfg : Config) (buying renting : List ℚ) (s : ℚ) (n : ℕ)
    (hdep : cfg.rentDeposit = cfg.downpayment)
    (hi : 0 < cfg.investmentReturnRate / 100 / 12)
    (hs : ∀ k, k < n → buying.getD k 0 - renting.getD k 0 = s) :
    rentingInvestmentValue cfg buying renting n =
      s * (1 + cfg.investmentReturnRate / 100 / 12) *
        ((1 + cfg.investmentReturnRate / 100 / 12) ^ n - 1) /
          (cfg.investmentReturnRate / 100 / 12) ∧
    (2 ≤ n → 0 < s →
      rentingInvestmentValue cfg buying renting n <
        s * n * (1 + cfg.investmentReturnRate / 100 / 12) ^ n) := by
  set i : ℚ := cfg.investmentReturnRate / 100 / 12 with hidef
  have hx : (1 : ℚ) < 1 + i := by linarith
  have hxne : (1 + i) ≠ 1 := by linarith
  have hine : i ≠ 0 := ne_of_gt hi
  have hsum := rentingInvestmentValue_const_sum cfg buying renting s n hdep hs
  constructor
  · rw [hsum]
    rw [Finset.sum_congr rfl (fun k _ => pow_succ' (1 + i) k), ← Finset.mul_sum]
    rw [geom_sum_eq hxne]
    have : (1 + i) - 1 = i := by ring
    rw [this]
    field_simp
    ring
  · intro hn hs0
    rw [hsum]
    calc s * ∑ k ∈ Finset.range n, (1 + i) ^ (k + 1) < s * (n * (1 + i) ^ n) :=
          mul_lt_mul_of_pos_left (sum_pow_lt_n_mul (1 + i) hx n hn) hs0
      _ = s * n * (1 + i) ^ n := by ring

/-- C6, counterexample.  With deposit equal to downpayment, rate 12%
(monthly i = 1/100) and a constant differential 1200: after 2 months
the loop value is 2436.12, not the ordinary-annuity value
1200*((1.01)^2-1)/0.01 = 2412 (the loop compounds each deposit in its
own month: annuity-due); and after 1 month it equals 1200*1*(1.01)^1
exactly, so it is not strictly below s*n*(1+i)^n at n = 1. -/
theorem c6_counterexample :
    (rentingInvestmentValue { baseConfig with investmentReturnRate := 12 } [1200, 1200] [0, 0] 2 ≠
      1200 * ((1 + 1 / 100) ^ 2 - 1) / (1 / 100)) ∧
    rentingInvestmentValue { baseConfig with investmentReturnRate := 12 } [1200, 1200] [0, 0] 1 =
      1200 * 1 * (1 + 1 / 100) ^ 1 := by
  constructor <;> norm_num [rentingInvestmentValue, baseConfig]

/-- C6, witness: the amended theorem instantiated at the counterexample
configuration with n = 2. -/
theorem c6_witness :
    rentingInvestmentValue { baseConfig with investmentReturnRate := 12 } [1200, 1200] [0, 0] 2 =
      1200 * (1 + 12 / 100 / 12) * ((1 + 12 / 100 / 12) ^ 2 - 1) / (12 / 100 / 12) ∧
    rentingInvestmentValue { baseConfig with investmentReturnRate := 12 } [1200, 1200] [0, 0] 2 <
      1200 * 2 * (1 + 12 / 100 / 12) ^ 2 := by
  have h :=
    c6_renting_annuity { baseConfig with investmentReturnRate := 12 } [1200, 1200] [0, 0] 1200 2
      (by simp [baseConfig]) (by norm_num [baseConfig])
      (by intro k hk; interval_cases k <;> simp)
  refine ⟨h.1, ?_⟩
  have h2 := h.2 le_rfl (by norm_num)
  norm_num at h2 ⊢
  exact h2

end Calc

namespace Calc

/-- C1, theorem (amended).  Whenever the loan-payoff read succeeds, the
two-scenario calculateSaleProceeds returns exactly: salePrice the
appreciation-compounded base (currentMarketValue when positive, else
purchasePrice), sellingCosts = salePrice*commission% + stagingCosts,
capitalGains = salePrice - purchasePrice - sellingCosts,
taxOnGains = max 0 (capitalGains - exemption) * capitalGainsTax%, and
netProceeds = salePrice - sellingCosts - loanPayoff - taxOnGains.  The
older buy-vs-rent variant satisfies the same equations EXCEPT that its
capital gain is salePrice - purchasePrice, without deducting the
selling costs. -/
theorem c1_sale_proceeds (cfg : Config) (balance : List ℚ) (m : ℕ) (lp : ℚ)
    (hlp : loanPayoffAt balance m = some lp) :
    (∀ o, calculateSaleProceeds cfg balance m = some o →
      o.salePrice = appreciatedValue
          (if cfg.currentMarketValue > 0 then cfg.currentMarketValue else cfg.purchasePrice)
          cfg.appreciationRates m ∧
      o.totalSellingCosts = o.salePrice * ((cfg.agentCommission : ℝ) / 100) + (cfg.stagingCosts : ℝ) ∧
      o.loanPayoff = lp ∧
      o.capitalGains = o.salePrice - (cfg.purchasePrice : ℝ) - o.totalSellingCosts ∧
      o.taxOnGains = max 0 (o.capitalGains - (exemptionAt cfg.taxFreeLimits m : ℝ)) *
        ((cfg.capitalGainsTax : ℝ) / 100) ∧
      o.netProceeds = o.salePrice - o.totalSellingCosts - (lp : ℝ) - o.taxOnGains) ∧
    (calculateSaleProceeds cfg balance m).isSome ∧
    (∀ pp ac sc tfl cgt rates o2,
      calculateSaleProceedsV2 pp ac sc tfl cgt rates balance m = some o2 →
      o2.salePrice = appreciatedValue pp rates m ∧
      o2.totalSellingCosts = o2.salePrice * ((ac : ℝ) / 100) + (sc : ℝ) ∧
      o2.capitalGains = o2.salePrice - (pp : ℝ) ∧
      o2.taxOnGains = max 0 (o2.capitalGains - (tfl : ℝ)) * ((cgt : ℝ) / 100) ∧
      o2.netProceeds = o2.salePrice - o2.totalSellingCosts - (o2.loanPayoff : ℝ) - o2.taxOnGains) := by
  refine ⟨?_, ?_, ?_⟩
  · intro o ho
    unfold calculateSaleProceeds at ho
    rw [hlp] at ho
    simp only [Option.some.injEq] at ho
    subst ho
    exact ⟨rfl, rfl, rfl, rfl, rfl, rfl⟩
  · unfold calculateSaleProceeds
    rw [hlp]
    rfl
  · intro pp ac sc tfl cgt rates o2 ho
    unfold calculateSaleProceedsV2 at ho
    rw [hlp] at ho
    simp only [Option.some.injEq] at ho
    subst ho
    exact ⟨rfl, rfl, rfl, rfl, rfl⟩

/-- C1, counterexample.  The claim asserts (for both cited code sites)
that capitalGains = salePrice - purchasePrice - sellingCosts.  In the
older buy-vs-rent variant, with purchase price 100, no appreciation,
staging costs 10 and a sale at month 12: salePrice = 100, selling
costs = 10, but capitalGains = 0, not 100 - 100 - 10 = -10 — that
variant does not deduct the selling costs from the gain. -/
theorem c1_counterexample :
    (calculateSaleProceedsV2 100 0 10 0 0 [0] [0] 12).map
        (fun o => (o.salePrice, o.totalSellingCosts, o.capitalGains)) =
      some (100, 10, 0) ∧
    (0 : ℝ) ≠ 100 - 100 - 10 := by
  constructor
  · have hlp : loanPayoffAt [(0 : ℚ)] 12 = some 0 := rfl
    unfold calculateSaleProceedsV2
    rw [hlp]
    simp only [Option.map_some]
    have hval : appreciatedValue 100 [0] 12 = (100 : ℝ) := by
      unfold appreciatedValue
      norm_num [appreciatedValueYears, rateAt, List.range_succ]
    norm_num [hval]
  · norm_num

/-- C1, witness: the loan-payoff read at month 12 over a one-entry
balance series succeeds, so the amended theorem applies at the all-zero
configuration. -/
theorem c1_witness :
    loanPayoffAt [(0 : ℚ)] 12 = some 0 ∧ (calculateSaleProceeds baseConfig [0] 12).isSome :=
  ⟨rfl, (c1_sale_proceeds baseConfig [0] 12 0 rfl).2.1⟩

end Calc

namespace Calc

/-- C9, counterexample.  The claim has no restriction on the sign of
the capital-gains tax rate (the engine explicitly accepts implausible
inputs).  With capitalGainsTax = -20, purchase price 100, one-year
appreciation 100% (gain 100), raising the year-1 tax-free limit from 0
to 50 raises taxOnGains from -20 to -10. -/
theorem c9_counterexample :
    (calculateSaleProceeds
        { baseConfig with
          purchasePrice := 100
          appreciationRates := [100]
          capitalGainsTax := -20
          taxFreeLimits := [0] } [0] 12).map SaleOutcome.taxOnGains = some (-20) ∧
    (calculateSaleProceeds
        { baseConfig with
          purchasePrice := 100
          appreciationRates := [100]
          capitalGainsTax := -20
          taxFreeLimits := [50] } [0] 12).map SaleOutcome.taxOnGains = some (-10) ∧
    (-20 : ℝ) < -10 := by
  have hlp : loanPayoffAt [(0 : ℚ)] 12 = some 0 := rfl
  have hval : appreciatedValue 100 [100] 12 = (200 : ℝ) := by
    unfold appreciatedValue
    norm_num [appreciatedValueYears, rateAt, List.range_succ]
  refine ⟨?_, ?_, by norm_num⟩
  · unfold calculateSaleProceeds
    rw [hlp]
    simp only [Option.map_some]
    norm_num [baseConfig, hval, exemptionAt, taxFreeLimitIndex]
  · unfold calculateSaleProceeds
    rw [hlp]
    simp only [Option.map_some]
    norm_num [baseConfig, hval, exemptionAt, taxFreeLimitIndex]

/-- C9, theorem (amended).  For a non-negative capital-gains tax rate,
pointwise raising the tax-free-limit schedule (same length, so the same
year entry is read) never increases taxOnGains, all else equal. -/
theorem c9_exemption_monotone (cfg : Config) (limits limits2 balance : List ℚ) (m : ℕ)
    (htax : 0 ≤ cfg.capitalGainsTax)
    (hlen : limits.length = limits2.length)
    (hle : ∀ i, limits.getD i 0 ≤ limits2.getD i 0)
    (o o2 : SaleOutcome)
    (h1 : calculateSaleProceeds { cfg with taxFreeLimits := limits } balance m = some o)
    (h2 : calculateSaleProceeds { cfg with taxFreeLimits := limits2 } balance m = some o2) :
    o2.taxOnGains ≤ o.taxOnGains := by
  cases hlp : loanPayoffAt balance m with
  | none =>
      unfold calculateSaleProceeds at h1
      rw [hlp] at h1
      cases h1
  | some lp =>
      unfold calculateSaleProceeds at h1 h2
      rw [hlp] at h1 h2
      simp only [Option.some.injEq] at h1 h2
      subst h1
      subst h2
      have hE : exemptionAt limits m ≤ exemptionAt limits2 m := by
        unfold exemptionAt
        rw [hlen]
        exact hle _
      have hER : ((exemptionAt limits m : ℚ) : ℝ) ≤ ((exemptionAt limits2 m : ℚ) : ℝ) := by
        exact_mod_cast hE
      have htaxR : (0 : ℝ) ≤ (cfg.capitalGainsTax : ℝ) / 100 := by
        have : (0 : ℝ) ≤ (cfg.capitalGainsTax : ℝ) := by exact_mod_cast htax
        linarith
      apply mul_le_mul_of_nonneg_right _ htaxR
      apply max_le_max le_rfl
      apply sub_le_sub_left hER

/-- C9, witness: the amended theorem at the all-zero configuration,
raising the one-entry schedule from [0] to [50]. -/
theorem c9_witness :
    calculateSaleProceeds { baseConfig with taxFreeLimits := [0] } [0] 12 =
      some ⟨0, 0, 0, 0, 0, 0⟩ ∧
    calculateSaleProceeds { baseConfig with taxFreeLimits := [50] } [0] 12 =
      some ⟨0, 0, 0, 0, 0, 0⟩ ∧
    (⟨0, 0, 0, 0, 0, 0⟩ : SaleOutcome).taxOnGains ≤
      (⟨0, 0, 0, 0, 0, 0⟩ : SaleOutcome).taxOnGains := by
  have hlp : loanPayoffAt [(0 : ℚ)] 12 = some 0 := rfl
  have hval : appreciatedValue 0 [0] 12 = (0 : ℝ) := by
    unfold appreciatedValue
    norm_num [appreciatedValueYears, rateAt, List.range_succ]
  have hA : calculateSaleProceeds { baseConfig with taxFreeLimits := [0] } [0] 12 =
      some ⟨0, 0, 0, 0, 0, 0⟩ := by
    unfold calculateSaleProceeds
    rw [hlp]
    norm_num [baseConfig, hval, exemptionAt, taxFreeLimitIndex]
  have hB : calculateSaleProceeds { baseConfig with taxFreeLimits := [50] } [0] 12 =
      some ⟨0, 0, 0, 0, 0, 0⟩ := by
    unfold calculateSaleProceeds
    rw [hlp]
    norm_num [baseConfig, hval, exemptionAt, taxFreeLimitIndex]
  exact ⟨hA, hB,
    c9_exemption_monotone baseConfig [0] [50] [0] 12 le_rfl rfl
      (by intro i; cases i <;> simp) _ _ hA hB⟩

end Calc

namespace Calc

/-- The cumulative-expenditure loop reads past the end of the cost
series as soon as the month count exceeds its length. -/
theorem sumCosts_none (costs : List ℚ) (n : ℕ) (h : costs.length < n) :
    sumCosts costs n = none := by
  induction n with
  | zero => omega
  | succ n ih =>
      rcases Nat.lt_or_ge costs.length n with hlt | hge
      · rw [sumCosts, ih hlt]
      · have hnone : costs[n]? = none := List.getElem?_eq_none (by omega)
        rw [sumCosts, hnone]
        cases sumCosts costs n <;> rfl

/-- C7, theorem.  For a month count beyond the 360-entry horizon the
loan-payoff reads of calculateSaleProceeds and calculateNetWorth do
clamp to the last entry of the balance series (and the sale-proceeds
computation succeeds), but the cumulative-expenditure loop of
calculateNetWorth reads the buying-cost series out of range: the Go
run panics, modelled by none. -/
theorem c7_beyond_horizon (cfg : Config) (buying balance : List ℚ) (m : ℕ)
    (hb : buying.length = 360) (hbal : balance.length ≤ 360) (hne : balance ≠ [])
    (hm : 360 < m) :
    calculateNetWorth cfg buying balance m = none ∧
    loanPayoffAt balance m = some (balance.getD (balance.length - 1) 0) ∧
    (calculateSaleProceeds cfg balance m).isSome := by
  have hlen1 : 1 ≤ balance.length := List.length_pos.mpr hne
  have hsum : sumCosts buying m = none := sumCosts_none _ _ (by omega)
  have hlp : loanPayoffAt balance m = some (balance.getD (balance.length - 1) 0) := by
    unfold loanPayoffAt goRead
    rw [if_pos (by omega : (m : ℤ) - 1 ≥ (balance.length : ℤ))]
    rw [if_pos (by omega : (0 : ℤ) ≤ (balance.length : ℤ) - 1)]
    have ht : ((balance.length : ℤ) - 1).toNat = balance.length - 1 := by omega
    have hidx : balance.length - 1 < balance.length := by omega
    rw [ht, List.getElem?_eq_getElem hidx, List.getD_eq_getElem?_getD,
      List.getElem?_eq_getElem hidx]
    rfl
  refine ⟨?_, hlp, ?_⟩
  · unfold calculateNetWorth
    rw [hsum]
  · unfold calculateSaleProceeds
    rw [hlp]
    rfl

/-- C7, witness: month 361 over a 360-entry cost series and a one-entry
balance series. -/
theorem c7_witness :
    calculateNetWorth baseConfig (List.replicate 360 0) [0] 361 = none ∧
    loanPayoffAt [(0 : ℚ)] 361 = some ([(0 : ℚ)].getD 0 0) ∧
    (calculateSaleProceeds baseConfig [0] 361).isSome := by
  have h := c7_beyond_horizon baseConfig (List.replicate 360 0) [0] 361
    (by simp) (by simp) (by simp) (by norm_num)
  simpa using h

end Calc

namespace Calc

/-- Models the main flow around parseConfig: the monthly series are
built (populateMonthlyCosts) only when parseConfig succeeds; on a parse
error main prints the message and returns, producing no series. -/
def runScenario (inputs : Inputs) (isSellVsKeep : Bool) :
    Except String (List ℚ × List ℚ) :=
  match parseConfig inputs isSellVsKeep with
  | .error e => .error e
  | .ok cfg => .ok (monthlyBuyingCosts cfg, monthlyRentingCosts cfg)

/-- C8, counterexample.  The claim says a non-positive anchor price
aborts the run.  parseConfig only rejects the exact value zero: with
purchase_price = "-500" (and every other field left empty, which
parses as 0) the buy-vs-rent parse SUCCEEDS with a negative purchase
price, and the run proceeds. -/
theorem c8_counterexample :
    (parseConfig [("purchase_price", "-500")] false).toOption.map Config.purchasePrice =
      some (-500) ∧
    ((-500 : ℚ) < 0) := by
  constructor
  · simp +decide [parseConfig, req, reqD, getFloatValue, getInput, parseAmount, goParseFloat,
      goToLower, trimSpace, trimSuffixC, hasSuffixC, digitsToNat, parseAppreciationRates,
      splitOnC, List.lookup, mkConfig]
  · norm_num

/-- C8, theorem (amended).  Non-positive durations are rejected with a
message (parseDuration only returns positive month counts); a ZERO
purchase price / current market value aborts the parse with a message
naming the field; and a parse error means the run builds no monthly
series.  (Negative anchor prices, however, are accepted: only the
exact value zero is rejected — see the counterexample.) -/
theorem c8_validation :
    (∀ s n, parseDuration s = .ok n → 0 < n) ∧
    parseConfig [("purchase_price", "0")] false =
      .error ("invalid purchase price - cannot be zero") ∧
    parseConfig [("purchase_price", "100"), ("current_market_value", "0")] true =
      .error ("invalid current market value - cannot be zero") ∧
    (∀ inputs b e, parseConfig inputs b = .error e → runScenario inputs b = .error e) := by
  refine ⟨fun s n h => parseDuration_pos s n h, ?_, ?_, ?_⟩
  · simp +decide [parseConfig, req, reqD, getFloatValue, getInput, parseAmount, goParseFloat,
      goToLower, trimSpace, trimSuffixC, hasSuffixC, digitsToNat, parseAppreciationRates,
      splitOnC, List.lookup]
    rfl
  · simp +decide [parseConfig, req, reqD, getFloatValue, getInput, parseAmount, goParseFloat,
      goToLower, trimSpace, trimSuffixC, hasSuffixC, digitsToNat, parseAppreciationRates,
      splitOnC, List.lookup]
    rfl
  · intro inputs b e h
    unfold runScenario
    rw [h]

/-- C8, witness: the zero-purchase-price run produces no series. -/
theorem c8_witness :
    runScenario [("purchase_price", "0")] false =
      .error ("invalid purchase price - cannot be zero") := by
  have h := c8_validation
  exact h.2.2.2 _ _ _ h.2.1

end Calc
